import Mathlib

/-!
Verification of the pointer-gesture engine of WebsiteEditorWithPreview.jsx.

The engine (component SmoothDraggable plus the surrounding
WebsiteEditorWithPreview handlers) is shallowly embedded as a step
function on an explicit system state.  Screen coordinates are modelled
as rationals.  The source compares Euclidean distances computed with
Math.sqrt against nonnegative thresholds; the embedding performs the
equivalent comparison of squared distances, and bridging lemmas relate
the executable squared-distance tests to the real-valued Euclidean
distance used in the statements.
-/

namespace Preview

/-- A screen point, from the x/y pairs used throughout the source. -/
structure Pt where
  x : ℚ
  y : ℚ
deriving DecidableEq, Repr

/-- The four snap-corner identifiers, source lines 166-171. -/
inductive CornerId
  | topLeft
  | topRight
  | bottomLeft
  | bottomRight
deriving DecidableEq, Repr

/-- A snap corner: coordinates plus identifier, source lines 166-171. -/
structure Corner where
  pos : Pt
  cid : CornerId
deriving DecidableEq, Repr

/-- Element width, fixed at 320 in the source (line 67). -/
def elementW : ℚ := 320

/-- Element height by size mode: 60 when minimized else 180 (line 68). -/
def elementH (isMin : Bool) : ℚ := if isMin then 60 else 180

/-- The bounding computation of updatePosition (source lines 71-72):
boundedX = max(0, min(x, windowWidth - elementWidth)) and symmetrically
for y. -/
def clampPos (x y W H : ℚ) (isMin : Bool) : Pt :=
  ⟨max 0 (min x (W - elementW)), max 0 (min y (H - elementH isMin))⟩

/-- Squared Euclidean distance between two points.  The source computes
Math.sqrt of this quantity and compares it with a nonnegative threshold,
which is equivalent to comparing this square with the squared
threshold. -/
def dist2 (p q : Pt) : ℚ := (p.x - q.x) ^ 2 + (p.y - q.y) ^ 2

/-- The corner list of handleMouseUp (source lines 166-171), enumerated
top-left, top-right, bottom-left, bottom-right, with margin 10. -/
def corners (W H : ℚ) (isMin : Bool) : List Corner :=
  [⟨⟨10, 10⟩, CornerId.topLeft⟩,
   ⟨⟨W - elementW - 10, 10⟩, CornerId.topRight⟩,
   ⟨⟨10, H - elementH isMin - 10⟩, CornerId.bottomLeft⟩,
   ⟨⟨W - elementW - 10, H - elementH isMin - 10⟩, CornerId.bottomRight⟩]

/-- Squared snap threshold: the source compares Euclidean distance with
snapDistance = 100 (line 158), so squared distances are compared with
10000. -/
def snapThreshold2 : ℚ := 10000

/-- One iteration of the corner loop of handleMouseUp (lines 177-187):
the candidate replaces the accumulator when its distance is below the
threshold and strictly below the current minimum (initially
Infinity). -/
def resolveStep (p : Pt) (acc : Option (Corner × ℚ)) (c : Corner) :
    Option (Corner × ℚ) :=
  let d := dist2 p c.pos
  match acc with
  | none => if d < snapThreshold2 then some (c, d) else none
  | some (b, m) =>
      if d < snapThreshold2 ∧ d < m then some (c, d) else some (b, m)

/-- The corner-snap resolver: the loop of handleMouseUp over the corner
list, returning the retained snapTarget (lines 173-187). -/
def resolveSnap (p : Pt) (cs : List Corner) : Option Corner :=
  (cs.foldl (resolveStep p) none).map Prod.fst

/-- The per-gesture record dragDataRef (source lines 21-30). -/
structure DragData where
  isDragging : Bool
  startX : ℚ
  startY : ℚ
  startLeft : ℚ
  startTop : ℚ
  currentX : ℚ
  currentY : ℚ
  hasMoved : Bool
deriving DecidableEq, Repr

/-- The freshly reset drag record with current set to the committed
position, as built by the disabled effect (lines 37-46). -/
def initDrag (p : Pt) : DragData :=
  ⟨false, 0, 0, 0, 0, p.x, p.y, false⟩

/-- The complete observable state of the engine and its host:
the gesture record, the committed thumbnail position, the dragging
flag, the disabled flag, the size mode, the live viewport size and the
ambient body styles. -/
structure Sys where
  drag : DragData
  pos : Pt
  draggingFlag : Bool
  disabled : Bool
  isMin : Bool
  vw : ℚ
  vh : ℚ
  cursor : String
  userSelect : String
deriving DecidableEq, Repr

/-- Initial system state: thumbnailPosition starts at (20, 20)
(source line 645), not minimized, enabled, no ambient overrides. -/
def initSys (W H : ℚ) : Sys :=
  { drag := initDrag ⟨20, 20⟩
    pos := ⟨20, 20⟩
    draggingFlag := false
    disabled := false
    isMin := false
    vw := W
    vh := H
    cursor := ""
    userSelect := "" }

/-- Observable outputs emitted to the host: position updates
(onPositionChange), drag start and end callbacks, the release
callback carrying wasDragging and moved (onMouseUp), the corner snap
callback (onSnapToCorner) and the dragging-flag setter
(setIsDragging). -/
inductive Out
  | posUpdate (p : Pt)
  | dragStart
  | dragEnd
  | clickN (wasDragging moved : Bool)
  | snapN (c : CornerId)
  | setDragging (b : Bool)
deriving DecidableEq, Repr

/-- updatePosition (source lines 59-82): clamp the proposed point to
the live viewport, record it in the gesture record, commit it through
onPositionChange. -/
def updatePos (s : Sys) (x y : ℚ) : Sys × List Out :=
  let p := clampPos x y s.vw s.vh s.isMin
  ({ s with
      drag := { s.drag with currentX := p.x, currentY := p.y }
      pos := p },
   [Out.posUpdate p])

/-- handleMouseDown (source lines 84-113): primary button only, not
disabled, not on a control target; arms the gesture with the element
origin taken from the committed position and sets the ambient grab
styles. -/
def mouseDown (s : Sys) (button : Nat) (noDragTarget : Bool) (cx cy : ℚ) :
    Sys × List Out :=
  if button ≠ 0 ∨ s.disabled = true then (s, [])
  else if noDragTarget then (s, [])
  else
    ({ s with
        drag := ⟨false, cx, cy, s.pos.x, s.pos.y, s.pos.x, s.pos.y, false⟩
        cursor := "grab"
        userSelect := "none" }, [])

/-- The shared body of handleMouseMove and handleTouchMove (lines
115-139 and 230-253): cross into dragging when the squared distance
from the start exceeds 25 (Euclidean distance above 5), then, if
dragging, propose startOrigin plus delta and run updatePosition.  Only
the mouse variant switches the ambient cursor to grabbing. -/
def moveCore (s : Sys) (cx cy : ℚ) (mouseCursor : Bool) : Sys × List Out :=
  let dX := cx - s.drag.startX
  let dY := cy - s.drag.startY
  if dX ^ 2 + dY ^ 2 > 25 ∧ s.drag.isDragging = false then
    let s1 : Sys :=
      { s with
          drag := { s.drag with isDragging := true, hasMoved := true }
          draggingFlag := true
          cursor := if mouseCursor then "grabbing" else s.cursor }
    let r2 := updatePos s1 (s1.drag.startLeft + dX) (s1.drag.startTop + dY)
    (r2.1, [Out.setDragging true, Out.dragStart] ++ r2.2)
  else if s.drag.isDragging then
    let r2 := updatePos s (s.drag.startLeft + dX) (s.drag.startTop + dY)
    r2
  else (s, [])

/-- handleMouseMove (lines 115-139).  The source guard is
"!dragDataRef.current.startX || disabled": a gesture is considered
inactive when startX is 0 (JavaScript falsiness of the number 0). -/
def mouseMove (s : Sys) (cx cy : ℚ) : Sys × List Out :=
  if s.drag.startX = 0 ∨ s.disabled = true then (s, [])
  else moveCore s cx cy true

/-- handleMouseUp (source lines 141-201), in the configuration used by
DraggableThumbnail (snapToCorners and onSnapToCorner present): reset
the gesture record and ambient styles, run corner-snap resolution when
the contact was a drag (updatePosition on the corner, then
onSnapToCorner commits the raw corner coordinates), then fire the
release callback with the saved wasDragging and hasMoved flags and the
drag-end callback. -/
def mouseUpCore (s : Sys) : Sys × List Out :=
  let s1 := { s with
      drag := { s.drag with
          isDragging := false, hasMoved := false, startX := 0, startY := 0 }
      draggingFlag := false
      cursor := ""
      userSelect := "" }
  if s.drag.isDragging then
    match resolveSnap ⟨s.drag.currentX, s.drag.currentY⟩
        (corners s.vw s.vh s.isMin) with
    | some c =>
        let r3 := updatePos s1 c.pos.x c.pos.y
        ({ r3.1 with pos := c.pos },
         Out.setDragging false :: r3.2 ++
           [Out.snapN c.cid, Out.clickN s.drag.isDragging s.drag.hasMoved,
            Out.dragEnd])
    | none =>
        (s1, [Out.setDragging false,
              Out.clickN s.drag.isDragging s.drag.hasMoved, Out.dragEnd])
  else
    (s1, [Out.setDragging false,
          Out.clickN s.drag.isDragging s.drag.hasMoved, Out.dragEnd])

/-- Mouse release: the document listener is detached while disabled, so
the handler only runs when enabled. -/
def mouseUp (s : Sys) : Sys × List Out :=
  if s.disabled = true then (s, []) else mouseUpCore s

/-- handleTouchStart (lines 204-228): ignored unless exactly one
contact is active; arms the gesture from the first touch without
touching the ambient styles. -/
def touchStart (s : Sys) (touchCount : Nat) (noDragTarget : Bool)
    (cx cy : ℚ) : Sys × List Out :=
  if touchCount ≠ 1 ∨ s.disabled = true then (s, [])
  else if noDragTarget then (s, [])
  else
    ({ s with
        drag := ⟨false, cx, cy, s.pos.x, s.pos.y, s.pos.x, s.pos.y, false⟩ },
     [])

/-- handleTouchMove (lines 230-253): same guard pattern as the mouse
move plus the single-contact requirement; the crossing does not change
the ambient cursor. -/
def touchMove (s : Sys) (touchCount : Nat) (cx cy : ℚ) : Sys × List Out :=
  if s.drag.startX = 0 ∨ touchCount ≠ 1 ∨ s.disabled = true then (s, [])
  else moveCore s cx cy false

/-- handleTouchEnd (lines 255-257) simply invokes handleMouseUp; the
number of remaining contacts is not inspected. -/
def touchEnd (s : Sys) (_remaining : Nat) : Sys × List Out :=
  if s.disabled = true then (s, []) else mouseUpCore s

/-- The disabled effect of SmoothDraggable (lines 32-57) for
disabling, and the modal-close cleanup effect (lines 719-729) for
re-enabling. -/
def setDisabled (s : Sys) (b : Bool) : Sys × List Out :=
  if b then
    let was := s.drag.isDragging
    ({ s with
        disabled := true
        drag := initDrag s.pos
        draggingFlag := if was then false else s.draggingFlag
        cursor := ""
        userSelect := "" },
     if was then [Out.setDragging false] else [])
  else
    ({ s with
        disabled := false
        draggingFlag := false
        cursor := ""
        userSelect := "" },
     [Out.setDragging false])

/-- The window resize handler (source lines 668-688): record the new
viewport, then clamp the committed position when it exceeds the new
maximum bound in either axis. -/
def resizeEv (s : Sys) (w h : ℚ) : Sys × List Out :=
  let s1 := { s with vw := w, vh := h }
  let maxX := w - elementW
  let maxY := h - elementH s1.isMin
  if s1.pos.x > maxX ∨ s1.pos.y > maxY then
    ({ s1 with
        pos := ⟨max 0 (min s1.pos.x maxX), max 0 (min s1.pos.y maxY)⟩ },
     [])
  else (s1, [])

/-- The Ctrl+M size-mode toggle (source lines 708-711): flips
isMinimized and nothing else. -/
def toggleMin (s : Sys) : Sys × List Out :=
  ({ s with isMin := !s.isMin }, [])

/-- Input events: pointer and touch events with their relevant
metadata, the disabled toggle, window resizes and the size-mode
toggle.  For touch events the count is the number of simultaneous
contacts carried by the event. -/
inductive Ev
  | mouseDown (button : Nat) (noDragTarget : Bool) (cx cy : ℚ)
  | mouseMove (cx cy : ℚ)
  | mouseUp
  | touchStart (touchCount : Nat) (noDragTarget : Bool) (cx cy : ℚ)
  | touchMove (touchCount : Nat) (cx cy : ℚ)
  | touchEnd (remaining : Nat)
  | setDisabled (b : Bool)
  | resize (w h : ℚ)
  | toggleMin

/-- Dispatch one event to its handler. -/
def step (s : Sys) : Ev → Sys × List Out
  | Ev.mouseDown b nd cx cy => mouseDown s b nd cx cy
  | Ev.mouseMove cx cy => mouseMove s cx cy
  | Ev.mouseUp => mouseUp s
  | Ev.touchStart n nd cx cy => touchStart s n nd cx cy
  | Ev.touchMove n cx cy => touchMove s n cx cy
  | Ev.touchEnd n => touchEnd s n
  | Ev.setDisabled b => setDisabled s b
  | Ev.resize w h => resizeEv s w h
  | Ev.toggleMin => toggleMin s

/-- Run a sequence of events, accumulating the emitted outputs. -/
def run (s : Sys) : List Ev → Sys × List Out
  | [] => (s, [])
  | e :: evs =>
      let r1 := step s e
      let r2 := run r1.1 evs
      (r2.1, r1.2 ++ r2.2)

/-- The real-valued Euclidean distance between two points, as computed
by Math.sqrt in the source. -/
noncomputable def rdist (p q : Pt) : ℝ := Real.sqrt ((dist2 p q : ℚ) : ℝ)

/-- Cumulative Euclidean path length of a sequence of move points
starting from a given point. -/
noncomputable def pathLen : Pt → List Pt → ℝ
  | _, [] => 0
  | s, p :: ps => rdist s p + pathLen p ps

/-- A point viewed as a complex number, used to derive the triangle
inequality for the Euclidean distance. -/
noncomputable def toC (p : Pt) : ℂ := ⟨(p.x : ℝ), (p.y : ℝ)⟩

/-- A corner qualifies for snapping when its squared distance from the
release position is below the squared threshold. -/
def qual (p : Pt) (c : Corner) : Prop := dist2 p c.pos < snapThreshold2

instance (p : Pt) (c : Corner) : Decidable (qual p c) := by
  unfold qual; infer_instance

/-- A concrete run for claim C1: resize to a 325-wide viewport, drag
the subject and release next to the top-left corner, so the snap
commits the raw corner coordinates. -/
def c1CxRun : Sys × List Out :=
  run (initSys 1000 800)
    [Ev.resize 325 800, Ev.mouseDown 0 false 100 100,
     Ev.mouseMove 100 90, Ev.mouseUp]

/-- A mid-drag state used to exhibit a concrete position-update
emission. -/
def c1WitSys : Sys :=
  { drag := ⟨true, 100, 100, 20, 20, 20, 20, true⟩
    pos := ⟨20, 20⟩
    draggingFlag := true
    disabled := false
    isMin := false
    vw := 1000
    vh := 800
    cursor := "grabbing"
    userSelect := "none" }

/-- A state whose committed position (50, 50) is a valid clamped
position for the 1000 by 800 viewport, used for claim C7. -/
def c7Sys : Sys :=
  { drag := initDrag ⟨50, 50⟩
    pos := ⟨50, 50⟩
    draggingFlag := false
    disabled := false
    isMin := false
    vw := 1000
    vh := 800
    cursor := ""
    userSelect := "" }

/-- A minimized state whose committed position is valid for the
minimized extent but exceeds the normal-extent bound, used for claim
C8. -/
def c8Sys : Sys :=
  { drag := initDrag ⟨20, 740⟩
    pos := ⟨20, 740⟩
    draggingFlag := false
    disabled := false
    isMin := true
    vw := 1000
    vh := 800
    cursor := ""
    userSelect := "" }

/-- A mid-drag state used for the C5 witness: the paragraph-8 scenario
of the specification, dragging in a 1000 by 800 viewport with the
normal extent and releasing at (650, 30). -/
def c5WitSys : Sys :=
  { drag := ⟨true, 500, 20, 20, 20, 650, 30, true⟩
    pos := ⟨650, 30⟩
    draggingFlag := true
    disabled := false
    isMin := false
    vw := 1000
    vh := 800
    cursor := "grabbing"
    userSelect := "none" }

/-- A mid-drag state at (150, 150) used for the C6 witness. -/
def c6WitSys : Sys :=
  { drag := ⟨true, 200, 200, 100, 100, 150, 150, true⟩
    pos := ⟨150, 150⟩
    draggingFlag := true
    disabled := false
    isMin := false
    vw := 1000
    vh := 800
    cursor := "grabbing"
    userSelect := "none" }

/-- A touch gesture that is mid-drag, after which a second contact has
arrived (its start event was ignored), used for claim C9: first touch
at (100, 100), a move to (480, 480), then a second finger touches. -/
def c9Sys : Sys :=
  (run (initSys 1000 800)
    [Ev.touchStart 1 false 100 100, Ev.touchMove 1 480 480,
     Ev.touchStart 2 false 200 200]).1

/-! ## One-dimensional clamp lemmas -/

theorem clamp1_nonneg (v A : ℚ) : 0 ≤ max 0 (min v A) := le_max_left _ _

theorem clamp1_le (v A : ℚ) (h : 0 ≤ A) : max 0 (min v A) ≤ A :=
  max_le h (min_le_right _ _)

theorem clamp1_le_max (v A : ℚ) : max 0 (min v A) ≤ max 0 A :=
  max_le (le_max_left _ _) (le_trans (min_le_right _ _) (le_max_right _ _))

theorem clamp1_neg (v A : ℚ) (h : A < 0) : max 0 (min v A) = 0 :=
  max_eq_left (le_of_lt (lt_of_le_of_lt (min_le_right _ _) h))

theorem clamp1_neg_input (v A : ℚ) (h : v < 0) : max 0 (min v A) = 0 :=
  max_eq_left (le_of_lt (lt_of_le_of_lt (min_le_left _ _) h))

theorem clamp1_idem (v A : ℚ) :
    max 0 (min (max 0 (min v A)) A) = max 0 (min v A) := by
  rcases le_or_lt 0 A with h | h
  · rw [min_eq_left (clamp1_le v A h), max_eq_right (le_max_left 0 (min v A))]
  · rw [clamp1_neg v A h, min_eq_right h.le, max_eq_left h.le]

/-- The bounds always satisfied by the clamp. -/
theorem clampPos_bounds (x y W H : ℚ) (mn : Bool) :
    0 ≤ (clampPos x y W H mn).x ∧
    (clampPos x y W H mn).x ≤ max 0 (W - elementW) ∧
    0 ≤ (clampPos x y W H mn).y ∧
    (clampPos x y W H mn).y ≤ max 0 (H - elementH mn) ∧
    (elementW ≤ W → (clampPos x y W H mn).x ≤ W - elementW) ∧
    (elementH mn ≤ H → (clampPos x y W H mn).y ≤ H - elementH mn) :=
  ⟨clamp1_nonneg _ _, clamp1_le_max _ _, clamp1_nonneg _ _, clamp1_le_max _ _,
   fun h => clamp1_le _ _ (by linarith),
   fun h => clamp1_le _ _ (by linarith)⟩

/-! ## Claim C2: the position clamp -/

/-- C2: the position clamp returns max(0, min(proposed.x, W - w)) on
the x axis and symmetrically on the y axis; when the viewport is
narrower than the extent the result is 0; the clamp is idempotent;
and whenever the viewport is at least the extent the result lies
within the box from (0, 0) to (W - w, H - h). -/
theorem clamp_spec (x y W H : ℚ) (mn : Bool) :
    clampPos x y W H mn =
      ⟨max 0 (min x (W - elementW)), max 0 (min y (H - elementH mn))⟩ ∧
    (W < elementW → (clampPos x y W H mn).x = 0) ∧
    (H < elementH mn → (clampPos x y W H mn).y = 0) ∧
    clampPos (clampPos x y W H mn).x (clampPos x y W H mn).y W H mn =
      clampPos x y W H mn ∧
    (elementW ≤ W → elementH mn ≤ H →
      0 ≤ (clampPos x y W H mn).x ∧ (clampPos x y W H mn).x ≤ W - elementW ∧
      0 ≤ (clampPos x y W H mn).y ∧ (clampPos x y W H mn).y ≤ H - elementH mn) := by
  refine ⟨rfl, fun h => clamp1_neg x _ (by linarith),
    fun h => clamp1_neg y _ (by linarith), ?_, fun h1 h2 =>
      ⟨clamp1_nonneg _ _, clamp1_le _ _ (by linarith),
       clamp1_nonneg _ _, clamp1_le _ _ (by linarith)⟩⟩
  simp only [clampPos, Pt.mk.injEq]
  exact ⟨clamp1_idem x _, clamp1_idem y _⟩

/-- Witness for C2 at a concrete input. -/
theorem clamp_spec_witness :
    elementW ≤ (1000 : ℚ) ∧ elementH false ≤ (800 : ℚ) ∧
    (0 ≤ (clampPos 700 (-5) 1000 800 false).x ∧
     (clampPos 700 (-5) 1000 800 false).x ≤ 1000 - elementW ∧
     0 ≤ (clampPos 700 (-5) 1000 800 false).y ∧
     (clampPos 700 (-5) 1000 800 false).y ≤ 800 - elementH false) :=
  ⟨by norm_num [elementW], by norm_num [elementH],
   (clamp_spec 700 (-5) 1000 800 false).2.2.2.2
     (by norm_num [elementW]) (by norm_num [elementH])⟩

/-! ## Claim C1: bounds on committed positions -/

/-- Any position update emitted by updatePosition is the clamp of the
proposed point against the live viewport of the state it runs in. -/
theorem updatePos_out (s : Sys) (x y : ℚ) (p : Pt)
    (h : Out.posUpdate p ∈ (updatePos s x y).2) :
    p = clampPos x y s.vw s.vh s.isMin := by
  simp only [updatePos, List.mem_singleton] at h
  injection h

/-- Any position update emitted by the move handler body is a clamp
against the viewport and size mode of the incoming state. -/
theorem moveCore_out (s : Sys) (cx cy : ℚ) (b : Bool) (p : Pt)
    (h : Out.posUpdate p ∈ (moveCore s cx cy b).2) :
    ∃ x y, p = clampPos x y s.vw s.vh s.isMin := by
  simp only [moveCore, updatePos] at h
  split at h
  · simp only [List.mem_append, List.mem_cons, List.mem_singleton,
      List.not_mem_nil, or_false, false_or,
      reduceCtorEq, Out.posUpdate.injEq] at h
    exact ⟨_, _, h⟩
  · split at h
    · simp only [List.mem_singleton, Out.posUpdate.injEq] at h
      exact ⟨_, _, h⟩
    · simp at h

/-- Any position update emitted by the release handler body is a clamp
against the viewport and size mode of the incoming state. -/
theorem mouseUpCore_out (s : Sys) (p : Pt)
    (h : Out.posUpdate p ∈ (mouseUpCore s).2) :
    ∃ x y, p = clampPos x y s.vw s.vh s.isMin := by
  simp only [mouseUpCore, updatePos] at h
  split at h
  · split at h
    · simp only [List.mem_cons, List.mem_append, List.mem_singleton,
        List.not_mem_nil, or_false, false_or,
        reduceCtorEq, Out.posUpdate.injEq] at h
      exact ⟨_, _, h⟩
    · simp at h
  · simp at h

/-- C1 (amended): every position update emitted by a step lies within
the box from (0, 0) to (max 0 (W - w), max 0 (H - h)) for the live
viewport and extent, hence within the box from (0, 0) to
(W - w, H - h) whenever the viewport is at least the element extent.
The initial state, the raw corner coordinates committed by a corner
snap, and the state after a size-mode toggle are not subject to this
bound. -/
theorem emitted_pos_bounded (s : Sys) (e : Ev) (p : Pt)
    (h : Out.posUpdate p ∈ (step s e).2) :
    0 ≤ p.x ∧ p.x ≤ max 0 (s.vw - elementW) ∧
    0 ≤ p.y ∧ p.y ≤ max 0 (s.vh - elementH s.isMin) ∧
    (elementW ≤ s.vw → p.x ≤ s.vw - elementW) ∧
    (elementH s.isMin ≤ s.vh → p.y ≤ s.vh - elementH s.isMin) := by
  have hp : ∃ x y, p = clampPos x y s.vw s.vh s.isMin := by
    cases e with
    | mouseDown b nd cx cy =>
        simp only [step, mouseDown] at h
        split at h
        · simp at h
        · split at h <;> simp at h
    | mouseMove cx cy =>
        simp only [step, mouseMove] at h
        split at h
        · simp at h
        · exact moveCore_out _ _ _ _ _ h
    | mouseUp =>
        simp only [step, mouseUp] at h
        split at h
        · simp at h
        · exact mouseUpCore_out _ _ h
    | touchStart n nd cx cy =>
        simp only [step, touchStart] at h
        split at h
        · simp at h
        · split at h <;> simp at h
    | touchMove n cx cy =>
        simp only [step, touchMove] at h
        split at h
        · simp at h
        · exact moveCore_out _ _ _ _ _ h
    | touchEnd n =>
        simp only [step, touchEnd] at h
        split at h
        · simp at h
        · exact mouseUpCore_out _ _ h
    | setDisabled b =>
        simp only [step, setDisabled] at h
        split at h
        · split at h <;> simp at h
        · simp at h
    | resize w hh =>
        simp only [step, resizeEv] at h
        split at h <;> simp at h
    | toggleMin =>
        simp only [step, toggleMin] at h
        simp at h
  obtain ⟨x, y, rfl⟩ := hp
  exact clampPos_bounds x y s.vw s.vh s.isMin

/-- Witness for C1 at a concrete emission. -/
theorem emitted_pos_bounded_witness :
    Out.posUpdate ⟨50, 20⟩ ∈ (step c1WitSys (Ev.mouseMove 130 100)).2 ∧
    0 ≤ (Pt.mk 50 20).x ∧
    (Pt.mk 50 20).x ≤ max 0 (c1WitSys.vw - elementW) := by
  have hm : Out.posUpdate ⟨50, 20⟩ ∈ (step c1WitSys (Ev.mouseMove 130 100)).2 := by
    norm_num [step, mouseMove, moveCore, updatePos, clampPos, c1WitSys,
      elementW, elementH]
  exact ⟨hm, (emitted_pos_bounded _ _ _ hm).1,
    (emitted_pos_bounded _ _ _ hm).2.1⟩

/-- C1 is false as stated: after a drag released next to the top-left
corner in a 325 by 800 viewport, the corner snap commits the raw
corner coordinates (10, 10), which exceed the maximum x bound
325 - 320 = 5 even though the viewport is wider than the element. -/
theorem snap_commit_out_of_bounds :
    c1CxRun.1.pos = ⟨10, 10⟩ ∧
    c1CxRun.1.vw = 325 ∧
    elementW ≤ c1CxRun.1.vw ∧
    ¬(c1CxRun.1.pos.x ≤ c1CxRun.1.vw - elementW) := by
  norm_num [c1CxRun, run, step, mouseDown, mouseMove, mouseUp, mouseUpCore,
    moveCore, updatePos, resizeEv, clampPos, resolveSnap, resolveStep,
    corners, dist2, elementW, elementH, initSys, initDrag, snapThreshold2]

/-! ## Claim C7: malformed geometry -/

/-- C7 is false as stated: from the known-good committed position
(50, 50), a proposed position with negative x is not substituted with
the last known-good position; it is clamped to 0 and the clamped point
is committed and emitted. -/
theorem invalid_geometry_not_substituted :
    0 ≤ c7Sys.pos.x ∧ c7Sys.pos.x ≤ c7Sys.vw - elementW ∧
    0 ≤ c7Sys.pos.y ∧ c7Sys.pos.y ≤ c7Sys.vh - elementH c7Sys.isMin ∧
    (updatePos c7Sys (-10) 50).1.pos = ⟨0, 50⟩ ∧
    (updatePos c7Sys (-10) 50).1.pos ≠ c7Sys.pos ∧
    Out.posUpdate ⟨0, 50⟩ ∈ (updatePos c7Sys (-10) 50).2 := by
  norm_num [c7Sys, updatePos, clampPos, elementW, elementH, initDrag]

/-- C7 (amended): there is no InvalidGeometry handling; a proposed
position or viewport size that is negative is fed to the ordinary
clamp, so a negative proposed coordinate or an undersized or negative
viewport dimension yields a committed coordinate of 0 on that axis
rather than the last known-good position. -/
theorem negative_geometry_clamped (s : Sys) (x y : ℚ) :
    (updatePos s x y).1.pos = clampPos x y s.vw s.vh s.isMin ∧
    (x < 0 → (updatePos s x y).1.pos.x = 0) ∧
    (y < 0 → (updatePos s x y).1.pos.y = 0) ∧
    (s.vw < elementW → (updatePos s x y).1.pos.x = 0) ∧
    (s.vh < elementH s.isMin → (updatePos s x y).1.pos.y = 0) :=
  ⟨rfl,
   fun h => clamp1_neg_input x _ h,
   fun h => clamp1_neg_input y _ h,
   fun h => clamp1_neg x _ (by linarith),
   fun h => clamp1_neg y _ (by linarith)⟩

/-- Witness for the amended C7 at a concrete input. -/
theorem negative_geometry_clamped_witness :
    (-10 : ℚ) < 0 ∧ (updatePos c7Sys (-10) 50).1.pos.x = 0 :=
  ⟨by norm_num, (negative_geometry_clamped c7Sys (-10) 50).2.1 (by norm_num)⟩

/-! ## Claim C8: viewport reflow -/

/-- C8 is false as stated: toggling the size mode from minimized to
normal commits nothing and emits nothing, leaving the previously valid
position (20, 740) in place although it now exceeds the bound
800 - 180 = 620 for the new extent. -/
theorem toggle_does_not_reposition :
    c8Sys.pos.y ≤ c8Sys.vh - elementH c8Sys.isMin ∧
    (toggleMin c8Sys).1.isMin = false ∧
    (toggleMin c8Sys).1.pos = c8Sys.pos ∧
    (toggleMin c8Sys).2 = [] ∧
    ¬((toggleMin c8Sys).1.pos.y ≤
        (toggleMin c8Sys).1.vh - elementH (toggleMin c8Sys).1.isMin) := by
  norm_num [c8Sys, toggleMin, elementH, initDrag]

/-- C8 (amended): on a viewport resize event whose new bounds are
exceeded by the committed position in either axis, the resize handler
recomputes and commits the clamp of the old position, which satisfies
the clamp invariant, with no user interaction; toggling the size mode,
however, commits nothing by itself. -/
theorem resize_reflow (s : Sys) (w h : ℚ)
    (hof : s.pos.x > w - elementW ∨ s.pos.y > h - elementH s.isMin) :
    (resizeEv s w h).1.pos =
      ⟨max 0 (min s.pos.x (w - elementW)),
       max 0 (min s.pos.y (h - elementH s.isMin))⟩ ∧
    0 ≤ (resizeEv s w h).1.pos.x ∧ 0 ≤ (resizeEv s w h).1.pos.y ∧
    (elementW ≤ w → (resizeEv s w h).1.pos.x ≤ w - elementW) ∧
    (elementH s.isMin ≤ h → (resizeEv s w h).1.pos.y ≤ h - elementH s.isMin) ∧
    (toggleMin s).1.pos = s.pos := by
  have hpos : (resizeEv s w h).1.pos =
      ⟨max 0 (min s.pos.x (w - elementW)),
       max 0 (min s.pos.y (h - elementH s.isMin))⟩ := by
    unfold resizeEv
    simp only
    rw [if_pos hof]
  refine ⟨hpos, ?_, ?_, ?_, ?_, rfl⟩
  · rw [hpos]; exact clamp1_nonneg _ _
  · rw [hpos]; exact clamp1_nonneg _ _
  · intro hw; rw [hpos]; exact clamp1_le _ _ (by linarith)
  · intro hh; rw [hpos]; exact clamp1_le _ _ (by linarith)

/-- Witness for the amended C8 at a concrete shrink: the viewport
shrinks to 300 by 400 while the position is the initial (20, 20). -/
theorem resize_reflow_witness :
    (((initSys 1000 800).pos.x > (300 : ℚ) - elementW ∨
      (initSys 1000 800).pos.y > (400 : ℚ) - elementH (initSys 1000 800).isMin) ∧
     (resizeEv (initSys 1000 800) 300 400).1.pos =
       ⟨max 0 (min (initSys 1000 800).pos.x ((300 : ℚ) - elementW)),
        max 0 (min (initSys 1000 800).pos.y
          ((400 : ℚ) - elementH (initSys 1000 800).isMin))⟩) := by
  have hof : (initSys 1000 800).pos.x > (300 : ℚ) - elementW ∨
      (initSys 1000 800).pos.y > (400 : ℚ) - elementH (initSys 1000 800).isMin := by
    norm_num [initSys, elementW, initDrag]
  exact ⟨hof, (resize_reflow (initSys 1000 800) 300 400 hof).1⟩

/-! ## Claim C6: disabling mid-gesture -/

/-- C6: for any state that is mid-drag, setting disabled makes the
dragging flag false, emits no release callback and no drag-end
callback, restores the ambient cursor and text-selection styles,
discards the in-flight gesture data, marks the engine disabled, and a
press arriving after disabled is cleared arms a fresh gesture, so the
press is not ignored. -/
theorem disable_mid_drag (s : Sys) (hdrag : s.drag.isDragging = true) :
    (setDisabled s true).1.draggingFlag = false ∧
    (∀ b m, Out.clickN b m ∉ (setDisabled s true).2) ∧
    Out.dragEnd ∉ (setDisabled s true).2 ∧
    (setDisabled s true).1.cursor = "" ∧
    (setDisabled s true).1.userSelect = "" ∧
    (setDisabled s true).1.drag = initDrag s.pos ∧
    (setDisabled s true).1.disabled = true ∧
    (∀ cx cy : ℚ,
      (mouseDown (setDisabled (setDisabled s true).1 false).1 0 false cx cy).1.drag =
        ⟨false, cx, cy, s.pos.x, s.pos.y, s.pos.x, s.pos.y, false⟩) := by
  simp only [setDisabled, mouseDown, hdrag]
  norm_num
  all_goals decide

/-- Witness for C6 at a concrete mid-drag state. -/
theorem disable_mid_drag_witness :
    c6WitSys.drag.isDragging = true ∧
    (setDisabled c6WitSys true).1.draggingFlag = false ∧
    (setDisabled c6WitSys true).1.drag = initDrag c6WitSys.pos := by
  have h := disable_mid_drag c6WitSys (by norm_num [c6WitSys])
  exact ⟨by norm_num [c6WitSys], h.1, h.2.2.2.2.2.1⟩

/-! ## Claim C10: wasDragging equals moved -/

/-- The gesture record keeps its dragging and moved flags equal, and
any release callback emitted from such a state carries equal flags:
the move-handler body case. -/
theorem moveCore_flags (s : Sys) (cx cy : ℚ) (b : Bool)
    (hinv : s.drag.isDragging = s.drag.hasMoved) :
    (moveCore s cx cy b).1.drag.isDragging =
      (moveCore s cx cy b).1.drag.hasMoved ∧
    ∀ b2 m, Out.clickN b2 m ∈ (moveCore s cx cy b).2 → b2 = m := by
  simp only [moveCore, updatePos]
  split
  · exact ⟨rfl, by intro b2 m hm; simp at hm⟩
  · split
    · exact ⟨hinv, by intro b2 m hm; simp at hm⟩
    · exact ⟨hinv, by intro b2 m hm; simp at hm⟩

/-- The gesture record keeps its dragging and moved flags equal, and
any release callback emitted from such a state carries equal flags:
the release-handler body case. -/
theorem mouseUpCore_flags (s : Sys)
    (hinv : s.drag.isDragging = s.drag.hasMoved) :
    (mouseUpCore s).1.drag.isDragging = (mouseUpCore s).1.drag.hasMoved ∧
    ∀ b m, Out.clickN b m ∈ (mouseUpCore s).2 → b = m := by
  simp only [mouseUpCore, updatePos]
  split
  · split
    · refine ⟨rfl, ?_⟩
      intro b m hm
      simp only [List.mem_cons, List.mem_append, List.mem_singleton,
        List.not_mem_nil, reduceCtorEq, Out.clickN.injEq,
        false_or, or_false] at hm
      obtain ⟨rfl, rfl⟩ := hm
      exact hinv
    · refine ⟨rfl, ?_⟩
      intro b m hm
      simp only [List.mem_cons, List.mem_singleton, List.not_mem_nil,
        reduceCtorEq, Out.clickN.injEq, false_or, or_false] at hm
      obtain ⟨rfl, rfl⟩ := hm
      exact hinv
  · refine ⟨rfl, ?_⟩
    intro b m hm
    simp only [List.mem_cons, List.mem_singleton, List.not_mem_nil,
      reduceCtorEq, Out.clickN.injEq, false_or, or_false] at hm
    obtain ⟨rfl, rfl⟩ := hm
    exact hinv

/-- One step preserves equality of the dragging and moved flags, and
every release callback it emits carries equal flags. -/
theorem step_flags_eq (s : Sys) (e : Ev)
    (hinv : s.drag.isDragging = s.drag.hasMoved) :
    (step s e).1.drag.isDragging = (step s e).1.drag.hasMoved ∧
    ∀ b m, Out.clickN b m ∈ (step s e).2 → b = m := by
  cases e with
  | mouseDown b nd cx cy =>
      simp only [step, mouseDown]
      split
      · exact ⟨hinv, by intro b2 m hm; simp at hm⟩
      · split
        · exact ⟨hinv, by intro b2 m hm; simp at hm⟩
        · exact ⟨rfl, by intro b2 m hm; simp at hm⟩
  | mouseMove cx cy =>
      simp only [step, mouseMove]
      split
      · exact ⟨hinv, by intro b2 m hm; simp at hm⟩
      · exact moveCore_flags _ _ _ _ hinv
  | mouseUp =>
      simp only [step, mouseUp]
      split
      · exact ⟨hinv, by intro b2 m hm; simp at hm⟩
      · exact mouseUpCore_flags _ hinv
  | touchStart n nd cx cy =>
      simp only [step, touchStart]
      split
      · exact ⟨hinv, by intro b2 m hm; simp at hm⟩
      · split
        · exact ⟨hinv, by intro b2 m hm; simp at hm⟩
        · exact ⟨rfl, by intro b2 m hm; simp at hm⟩
  | touchMove n cx cy =>
      simp only [step, touchMove]
      split
      · exact ⟨hinv, by intro b2 m hm; simp at hm⟩
      · exact moveCore_flags _ _ _ _ hinv
  | touchEnd n =>
      simp only [step, touchEnd]
      split
      · exact ⟨hinv, by intro b2 m hm; simp at hm⟩
      · exact mouseUpCore_flags _ hinv
  | setDisabled b =>
      simp only [step, setDisabled]
      split
      · refine ⟨rfl, ?_⟩
        intro b2 m hm
        split at hm <;> simp at hm
      · exact ⟨hinv, by intro b2 m hm; simp at hm⟩
  | resize w hh =>
      simp only [step, resizeEv]
      split
      · exact ⟨hinv, by intro b2 m hm; simp at hm⟩
      · exact ⟨hinv, by intro b2 m hm; simp at hm⟩
  | toggleMin =>
      simp only [step, toggleMin]
      exact ⟨hinv, by intro b2 m hm; simp at hm⟩

/-- Over a whole event sequence from a state with equal flags, every
release callback carries equal flags. -/
theorem run_flags_eq (s : Sys) (evs : List Ev)
    (hinv : s.drag.isDragging = s.drag.hasMoved) :
    ∀ b m, Out.clickN b m ∈ (run s evs).2 → b = m := by
  induction evs generalizing s with
  | nil => intro b m hm; simp [run] at hm
  | cons e evs ih =>
      intro b m hm
      simp only [run, List.mem_append] at hm
      rcases hm with hm | hm
      · exact (step_flags_eq s e hinv).2 b m hm
      · exact ih (step s e).1 (step_flags_eq s e hinv).1 b m hm

/-- C10: in every release callback delivered to the host over any
event sequence from the initial state, the wasDragging and moved
arguments are equal; the two flags are set together at the threshold
crossing and reset together on release and on disable. -/
theorem release_flags_agree (W H : ℚ) (evs : List Ev) (b m : Bool)
    (h : Out.clickN b m ∈ (run (initSys W H) evs).2) : b = m :=
  run_flags_eq (initSys W H) evs rfl b m h

/-- Witness for C10 on a concrete press-release trace. -/
theorem release_flags_agree_witness :
    Out.clickN false false ∈
      (run (initSys 1000 800) [Ev.mouseDown 0 false 100 100, Ev.mouseUp]).2 ∧
    (false = false) := by
  have hm : Out.clickN false false ∈
      (run (initSys 1000 800) [Ev.mouseDown 0 false 100 100, Ev.mouseUp]).2 := by
    norm_num [run, step, mouseDown, mouseUp, mouseUpCore, updatePos,
      clampPos, initSys, initDrag, elementW, elementH]
  exact ⟨hm, release_flags_agree 1000 800 _ false false hm⟩

/-! ## Euclidean distance bridging lemmas -/

theorem dist2_nonneg (p q : Pt) : 0 ≤ dist2 p q := by
  unfold dist2; positivity

theorem rdist_nonneg (p q : Pt) : 0 ≤ rdist p q := Real.sqrt_nonneg _

theorem rdist_eq_cabs (p q : Pt) :
    rdist p q = Complex.abs (toC p - toC q) := by
  rw [rdist, Complex.abs_apply, Complex.normSq_apply]
  congr 1
  simp only [toC, Complex.sub_re, Complex.sub_im, dist2]
  push_cast
  ring

theorem rdist_triangle (p q r : Pt) :
    rdist p r ≤ rdist p q + rdist q r := by
  rw [rdist_eq_cabs, rdist_eq_cabs, rdist_eq_cabs]
  exact Complex.abs.sub_le (toC p) (toC q) (toC r)

theorem pathLen_nonneg (s : Pt) (ps : List Pt) : 0 ≤ pathLen s ps := by
  induction ps generalizing s with
  | nil => simp [pathLen]
  | cons p ps ih =>
      simp only [pathLen]
      exact add_nonneg (rdist_nonneg _ _) (ih p)

/-- Every visited point of a path lies within the cumulative path
length of the start. -/
theorem rdist_le_pathLen (s q : Pt) (ps : List Pt) (hq : q ∈ ps) :
    rdist s q ≤ pathLen s ps := by
  induction ps generalizing s with
  | nil => cases hq
  | cons p ps ih =>
      rcases List.mem_cons.mp hq with rfl | hq2
      · simp only [pathLen]
        exact le_add_of_nonneg_right (pathLen_nonneg q ps)
      · calc rdist s q ≤ rdist s p + rdist p q := rdist_triangle s p q
          _ ≤ rdist s p + pathLen p ps := add_le_add_left (ih p hq2) _
          _ = pathLen s (p :: ps) := rfl

/-- A Euclidean distance of at most 5 means a squared distance of at
most 25. -/
theorem dist2_le25 (s q : Pt) (h : rdist s q ≤ 5) : dist2 s q ≤ 25 := by
  have h2 : ((dist2 s q : ℚ) : ℝ) ≤ (5 : ℝ) ^ 2 := by
    rw [rdist] at h
    exact (Real.sqrt_le_left (by norm_num : (0 : ℝ) ≤ 5)).mp h
  have h3 : ((dist2 s q : ℚ) : ℝ) ≤ 25 := by linarith [h2]
  exact_mod_cast h3

/-- Euclidean distance below 100 is the same as squared distance below
10000. -/
theorem rdist_lt100_iff (p q : Pt) : rdist p q < 100 ↔ dist2 p q < 10000 := by
  rw [rdist, Real.sqrt_lt' (by norm_num : (0 : ℝ) < 100)]
  constructor
  · intro h
    have h2 : ((dist2 p q : ℚ) : ℝ) < 10000 := by linarith [h]
    exact_mod_cast h2
  · intro h
    have h2 : ((dist2 p q : ℚ) : ℝ) < 10000 := by exact_mod_cast h
    linarith [h2]

/-- Comparing Euclidean distances is comparing squared distances. -/
theorem rdist_le_iff (p a b : Pt) :
    rdist p a ≤ rdist p b ↔ dist2 p a ≤ dist2 p b := by
  rw [rdist, rdist, Real.sqrt_le_sqrt_iff (by exact_mod_cast dist2_nonneg p b)]
  exact Rat.cast_le

/-- Strictly comparing Euclidean distances is strictly comparing
squared distances. -/
theorem rdist_lt_iff (p a b : Pt) :
    rdist p a < rdist p b ↔ dist2 p a < dist2 p b := by
  rw [rdist, rdist, Real.sqrt_lt_sqrt_iff (by exact_mod_cast dist2_nonneg p a)]
  exact Rat.cast_lt

/-! ## Trace helpers -/

theorem run_append (s : Sys) (a b : List Ev) :
    run s (a ++ b) =
      ((run (run s a).1 b).1, (run s a).2 ++ (run (run s a).1 b).2) := by
  induction a generalizing s with
  | nil => simp [run]
  | cons e a ih => simp [run, ih, List.append_assoc]

/-- A press with the primary button on a draggable target while
enabled arms a fresh gesture. -/
theorem mouseDown_arms (s : Sys) (sx sy : ℚ) (hdis : s.disabled = false) :
    mouseDown s 0 false sx sy =
      ({ s with
          drag := ⟨false, sx, sy, s.pos.x, s.pos.y, s.pos.x, s.pos.y, false⟩
          cursor := "grab"
          userSelect := "none" }, []) := by
  simp [mouseDown, hdis]

/-- A release of a contact that never crossed the drag threshold
resets the gesture and fires the release callback with wasDragging
false. -/
theorem mouseUp_click (s : Sys) (hdis : s.disabled = false)
    (hnd : s.drag.isDragging = false) :
    mouseUp s =
      ({ s with
          drag := { s.drag with
                    isDragging := false, hasMoved := false,
                    startX := 0, startY := 0 }
          draggingFlag := false
          cursor := ""
          userSelect := "" },
       [Out.setDragging false, Out.clickN false s.drag.hasMoved,
        Out.dragEnd]) := by
  simp [mouseUp, mouseUpCore, hdis, hnd]

/-- Moves that all stay within squared distance 25 of the start leave
a non-dragging state untouched and emit nothing. -/
theorem moves_noop (s2 : Sys) (moves : List Pt)
    (hnd : s2.drag.isDragging = false)
    (hsmall : ∀ q ∈ moves,
      (q.x - s2.drag.startX) ^ 2 + (q.y - s2.drag.startY) ^ 2 ≤ 25) :
    run s2 (moves.map fun q => Ev.mouseMove q.x q.y) = (s2, []) := by
  revert hsmall
  induction moves with
  | nil => intro _; rfl
  | cons q qs ih =>
      intro hsmall
      have hstep : step s2 (Ev.mouseMove q.x q.y) = (s2, []) := by
        simp only [step, mouseMove]
        split
        · rfl
        · simp only [moveCore]
          split
          · rename_i hcross
            exact absurd hcross.1
              (not_lt.mpr (hsmall q (List.mem_cons_self q qs)))
          · split
            · rename_i hdr
              rw [hnd] at hdr
              exact absurd hdr (by decide)
            · rfl
      simp only [List.map_cons, run, hstep]
      rw [ih (fun r hr => hsmall r (List.mem_cons_of_mem q hr))]
      rfl

/-- From an armed, never-dragged state, small moves followed by a
release produce exactly the dragging-flag reset, the release callback
with wasDragging false, and the drag-end callback. -/
theorem armed_small_moves (s1 : Sys) (moves : List Pt)
    (hdis : s1.disabled = false) (hnd : s1.drag.isDragging = false)
    (hhm : s1.drag.hasMoved = false)
    (hsmall : ∀ q ∈ moves,
      (q.x - s1.drag.startX) ^ 2 + (q.y - s1.drag.startY) ^ 2 ≤ 25) :
    (run s1 ((moves.map fun q => Ev.mouseMove q.x q.y) ++ [Ev.mouseUp])).2 =
      [Out.setDragging false, Out.clickN false false, Out.dragEnd] := by
  rw [run_append, moves_noop s1 moves hnd hsmall]
  simp only [run, step, List.nil_append]
  rw [mouseUp_click s1 hdis hnd]
  simp [hhm]

/-! ## Claim C3: small moves classify as a click -/

/-- C3: for every press followed by moves of cumulative Euclidean path
length at most 5 and then a release, no position update and no
drag-start callback is ever emitted during the contact, and the
release fires the click callback with wasDragging false. -/
theorem small_moves_click (s : Sys) (sx sy : ℚ) (moves : List Pt)
    (hdis : s.disabled = false)
    (hpath : pathLen ⟨sx, sy⟩ moves ≤ 5) :
    (∀ p, Out.posUpdate p ∉ (run s (Ev.mouseDown 0 false sx sy ::
        ((moves.map fun q => Ev.mouseMove q.x q.y) ++ [Ev.mouseUp]))).2) ∧
    Out.clickN false false ∈ (run s (Ev.mouseDown 0 false sx sy ::
        ((moves.map fun q => Ev.mouseMove q.x q.y) ++ [Ev.mouseUp]))).2 ∧
    Out.dragStart ∉ (run s (Ev.mouseDown 0 false sx sy ::
        ((moves.map fun q => Ev.mouseMove q.x q.y) ++ [Ev.mouseUp]))).2 := by
  have hsmall : ∀ q ∈ moves, (q.x - sx) ^ 2 + (q.y - sy) ^ 2 ≤ 25 := by
    intro q hq
    have h5 : rdist ⟨sx, sy⟩ q ≤ 5 :=
      (rdist_le_pathLen ⟨sx, sy⟩ q moves hq).trans hpath
    have h25 : dist2 ⟨sx, sy⟩ q ≤ 25 := dist2_le25 _ _ h5
    have heq : dist2 ⟨sx, sy⟩ q = (q.x - sx) ^ 2 + (q.y - sy) ^ 2 := by
      simp only [dist2]
      ring
    linarith [heq ▸ h25]
  have hbig : (run s (Ev.mouseDown 0 false sx sy ::
      ((moves.map fun q => Ev.mouseMove q.x q.y) ++ [Ev.mouseUp]))).2 =
      [Out.setDragging false, Out.clickN false false, Out.dragEnd] := by
    have harm := mouseDown_arms s sx sy hdis
    simp only [run, step, harm]
    rw [armed_small_moves
      { s with
          drag := ⟨false, sx, sy, s.pos.x, s.pos.y, s.pos.x, s.pos.y, false⟩
          cursor := "grab"
          userSelect := "none" }
      moves hdis rfl rfl hsmall]
    simp
  rw [hbig]
  refine ⟨?_, ?_, ?_⟩
  · intro p
    simp
  · simp
  · simp

/-- Witness for C3: a press at (100, 100) followed by one move to
(103, 104), a path of Euclidean length exactly 5, then release. -/
theorem small_moves_click_witness :
    (initSys 1000 800).disabled = false ∧
    pathLen ⟨100, 100⟩ [⟨103, 104⟩] ≤ 5 ∧
    Out.clickN false false ∈ (run (initSys 1000 800)
      (Ev.mouseDown 0 false 100 100 ::
        (([(⟨103, 104⟩ : Pt)].map fun q => Ev.mouseMove q.x q.y) ++
          [Ev.mouseUp]))).2 := by
  have hdis : (initSys 1000 800).disabled = false := rfl
  have hpath : pathLen ⟨100, 100⟩ [(⟨103, 104⟩ : Pt)] ≤ 5 := by
    simp only [pathLen, rdist, dist2, add_zero]
    have h1 : ((((100 : ℚ) - 103) ^ 2 + ((100 : ℚ) - 104) ^ 2 : ℚ) : ℝ) = 25 := by
      norm_num
    rw [h1, show (25 : ℝ) = 5 ^ 2 by norm_num,
      Real.sqrt_sq (by norm_num : (0 : ℝ) ≤ 5)]
  exact ⟨hdis, hpath,
    (small_moves_click (initSys 1000 800) 100 100 [⟨103, 104⟩] hdis hpath).2.1⟩

/-! ## Claim C4: the drag threshold and the zero start coordinate -/

/-- C4 fails on the code at a press whose x coordinate is 0: the move
handler treats a zero startX as an inactive gesture, so a press at
(0, 100) followed by a move to (10, 100), of Euclidean distance 10
from the start, emits no drag-start callback and no position update,
and the release callback reports wasDragging false.  The squared
distance 100 exceeds the squared threshold 25, so the claim requires a
drag-start and wasDragging true here. -/
theorem press_at_x_zero_ignored :
    (((10 : ℚ) - 0) ^ 2 + ((100 : ℚ) - 100) ^ 2 > 25) ∧
    (run (initSys 1000 800)
      [Ev.mouseDown 0 false 0 100, Ev.mouseMove 10 100, Ev.mouseUp]).2 =
      [Out.setDragging false, Out.clickN false false, Out.dragEnd] := by
  constructor
  · norm_num
  · norm_num [run, step, mouseDown, mouseMove, mouseUp, mouseUpCore,
      moveCore, updatePos, clampPos, initSys, initDrag, elementW, elementH,
      corners, resolveSnap, resolveStep, dist2, snapThreshold2]

/-! ## Claim C9: multi-touch filtering -/

/-- C9 fails on the code for touch-end events: from a mid-drag touch
gesture with a second contact active (the extra start was ignored),
the end event of the extra contact is not ignored; it runs the full
release handler, terminating the drag and firing the release
callback. -/
theorem extra_contact_end_not_ignored :
    c9Sys.drag.isDragging = true ∧
    step c9Sys (Ev.touchStart 2 false 200 200) = (c9Sys, []) ∧
    (step c9Sys (Ev.touchEnd 1)).1.drag.isDragging = false ∧
    Out.clickN true true ∈ (step c9Sys (Ev.touchEnd 1)).2 := by
  norm_num [c9Sys, run, step, touchStart, touchMove, touchEnd, mouseUpCore,
    moveCore, updatePos, clampPos, initSys, initDrag, elementW, elementH,
    corners, resolveSnap, resolveStep, dist2, snapThreshold2]

/-- The move-handler body ignores the cursor flag in everything except
the ambient cursor: gesture record, committed position and outputs
agree between the mouse and touch variants. -/
theorem moveCore_cursor_irrelevant (s : Sys) (cx cy : ℚ) :
    (moveCore s cx cy false).1.drag = (moveCore s cx cy true).1.drag ∧
    (moveCore s cx cy false).1.pos = (moveCore s cx cy true).1.pos ∧
    (moveCore s cx cy false).2 = (moveCore s cx cy true).2 := by
  simp only [moveCore, updatePos]
  split
  · exact ⟨rfl, rfl, rfl⟩
  · split
    · exact ⟨rfl, rfl, rfl⟩
    · exact ⟨rfl, rfl, rfl⟩

/-- C9 (amended): touch events drive the same gesture machine as mouse
events through the first contact, and start and move events carrying
more than one simultaneous contact are ignored entirely; but end
events are not filtered by contact count: any touch-end event invokes
the full release handler, exactly as a mouse release does. -/
theorem multitouch_filtering (s : Sys) (n k : Nat) (nd : Bool) (cx cy : ℚ)
    (hn : n ≠ 1) :
    touchStart s n nd cx cy = (s, []) ∧
    touchMove s n cx cy = (s, []) ∧
    (s.disabled = false → touchEnd s k = mouseUpCore s) ∧
    (touchStart s 1 nd cx cy).1.drag = (mouseDown s 0 nd cx cy).1.drag ∧
    (touchStart s 1 nd cx cy).2 = (mouseDown s 0 nd cx cy).2 ∧
    (touchMove s 1 cx cy).1.drag = (mouseMove s cx cy).1.drag ∧
    (touchMove s 1 cx cy).1.pos = (mouseMove s cx cy).1.pos ∧
    (touchMove s 1 cx cy).2 = (mouseMove s cx cy).2 := by
  refine ⟨?_, ?_, ?_, ?_, ?_, ?_, ?_, ?_⟩
  · simp [touchStart, hn]
  · simp [touchMove, hn]
  · intro h
    simp [touchEnd, h]
  · by_cases hd : s.disabled = true
    · simp [touchStart, mouseDown, hd]
    · simp only [touchStart, mouseDown]
      by_cases hnd2 : nd = true
      · simp [hd, hnd2]
      · simp [hd, hnd2]
  · by_cases hd : s.disabled = true
    · simp [touchStart, mouseDown, hd]
    · simp only [touchStart, mouseDown]
      by_cases hnd2 : nd = true
      · simp [hd, hnd2]
      · simp [hd, hnd2]
  · by_cases hg : s.drag.startX = 0 ∨ s.disabled = true
    · simp [touchMove, mouseMove, hg]
    · simp only [touchMove, mouseMove]
      rw [if_neg (by push_neg at hg ⊢; exact ⟨hg.1, by norm_num, hg.2⟩),
        if_neg hg]
      exact (moveCore_cursor_irrelevant s cx cy).1
  · by_cases hg : s.drag.startX = 0 ∨ s.disabled = true
    · simp [touchMove, mouseMove, hg]
    · simp only [touchMove, mouseMove]
      rw [if_neg (by push_neg at hg ⊢; exact ⟨hg.1, by norm_num, hg.2⟩),
        if_neg hg]
      exact (moveCore_cursor_irrelevant s cx cy).2.1
  · by_cases hg : s.drag.startX = 0 ∨ s.disabled = true
    · simp [touchMove, mouseMove, hg]
    · simp only [touchMove, mouseMove]
      rw [if_neg (by push_neg at hg ⊢; exact ⟨hg.1, by norm_num, hg.2⟩),
        if_neg hg]
      exact (moveCore_cursor_irrelevant s cx cy).2.2

/-- Witness for the amended C9: a two-contact start event is ignored
from the initial state. -/
theorem multitouch_filtering_witness :
    (2 : Nat) ≠ 1 ∧
    touchStart (initSys 1000 800) 2 false 200 200 = (initSys 1000 800, []) :=
  ⟨by norm_num,
   (multitouch_filtering (initSys 1000 800) 2 0 false 200 200
     (by norm_num)).1⟩

/-! ## Claim C5: corner-snap resolution -/

/-- Once the corner loop has retained a candidate, it retains one to
the end. -/
theorem foldl_resolve_some (p : Pt) (cs : List Corner) (a : Corner × ℚ) :
    ∃ r, cs.foldl (resolveStep p) (some a) = some r := by
  induction cs generalizing a with
  | nil => exact ⟨a, rfl⟩
  | cons c cs ih =>
      rcases a with ⟨b, m⟩
      simp only [List.foldl_cons, resolveStep]
      split
      · exact ih _
      · exact ih _

/-- Invariant of the corner loop with a retained candidate whose
stored distance is its squared distance: the final candidate either is
the incoming one, in which case no later corner strictly improves on
it, or is a later qualifying corner that strictly beats the incoming
one and every qualifying corner before it, and is at least as close as
every qualifying corner after it. -/
theorem foldl_resolve_acc (p : Pt) :
    ∀ (cs : List Corner) (b c : Corner) (d : ℚ),
    cs.foldl (resolveStep p) (some (b, dist2 p b.pos)) = some (c, d) →
    d = dist2 p c.pos ∧
    ((c = b ∧ ∀ c2 ∈ cs, qual p c2 → dist2 p b.pos ≤ dist2 p c2.pos) ∨
     (∃ pre suf, cs = pre ++ c :: suf ∧ qual p c ∧
       dist2 p c.pos < dist2 p b.pos ∧
       (∀ c2 ∈ pre, qual p c2 → dist2 p c.pos < dist2 p c2.pos) ∧
       (∀ c2 ∈ suf, qual p c2 → dist2 p c.pos ≤ dist2 p c2.pos))) := by
  intro cs
  induction cs with
  | nil =>
      intro b c d h
      simp only [List.foldl_nil, Option.some.injEq, Prod.mk.injEq] at h
      obtain ⟨rfl, rfl⟩ := h
      exact ⟨rfl, Or.inl ⟨rfl, by intro c2 hc2; cases hc2⟩⟩
  | cons c0 cs ih =>
      intro b c d h
      simp only [List.foldl_cons, resolveStep] at h
      by_cases hc : dist2 p c0.pos < snapThreshold2 ∧
          dist2 p c0.pos < dist2 p b.pos
      · rw [if_pos hc] at h
        obtain ⟨hd, hcase⟩ := ih c0 c d h
        refine ⟨hd, Or.inr ?_⟩
        rcases hcase with ⟨rfl, hmin⟩ | ⟨pre, suf, hsplit, hq, hlt, hpre, hsuf⟩
        · exact ⟨[], cs, rfl, hc.1, hc.2,
            (by intro c2 hc2; cases hc2), hmin⟩
        · refine ⟨c0 :: pre, suf, by simp [hsplit], hq,
            lt_trans hlt hc.2, ?_, hsuf⟩
          intro c2 hc2
          rcases List.mem_cons.mp hc2 with rfl | hc2
          · intro _; exact hlt
          · exact hpre c2 hc2
      · rw [if_neg hc] at h
        obtain ⟨hd, hcase⟩ := ih b c d h
        have hkeep : qual p c0 → dist2 p b.pos ≤ dist2 p c0.pos := by
          intro hq0
          by_contra hlt2
          push_neg at hlt2
          exact hc ⟨hq0, hlt2⟩
        refine ⟨hd, ?_⟩
        rcases hcase with ⟨rfl, hmin⟩ | ⟨pre, suf, hsplit, hq, hlt, hpre, hsuf⟩
        · refine Or.inl ⟨rfl, ?_⟩
          intro c2 hc2
          rcases List.mem_cons.mp hc2 with rfl | hc2
          · exact hkeep
          · exact hmin c2 hc2
        · refine Or.inr ⟨c0 :: pre, suf, by simp [hsplit], hq, hlt, ?_, hsuf⟩
          intro c2 hc2
          rcases List.mem_cons.mp hc2 with rfl | hc2
          · intro hq2
            exact lt_of_lt_of_le hlt (hkeep hq2)
          · exact hpre c2 hc2

/-- If the corner loop finishes with no candidate, no corner
qualifies. -/
theorem foldl_resolve_none (p : Pt) :
    ∀ cs : List Corner, cs.foldl (resolveStep p) none = none →
      ∀ c ∈ cs, ¬ qual p c := by
  intro cs
  induction cs with
  | nil => intro _ c hc; cases hc
  | cons c0 cs ih =>
      intro h c hc
      simp only [List.foldl_cons, resolveStep] at h
      by_cases hq : dist2 p c0.pos < snapThreshold2
      · rw [if_pos hq] at h
        obtain ⟨r, hr⟩ := foldl_resolve_some p cs (c0, dist2 p c0.pos)
        rw [hr] at h
        cases h
      · rw [if_neg hq] at h
        rcases List.mem_cons.mp hc with rfl | hc2
        · exact hq
        · exact ih h c hc2

/-- Characterization of the corner loop from the empty accumulator:
the result is a qualifying corner that strictly beats every qualifying
corner before it and is at least as close as every qualifying corner
after it. -/
theorem foldl_resolve_start (p : Pt) :
    ∀ (cs : List Corner) (c : Corner) (d : ℚ),
    cs.foldl (resolveStep p) none = some (c, d) →
    d = dist2 p c.pos ∧ qual p c ∧
    ∃ pre suf, cs = pre ++ c :: suf ∧
      (∀ c2 ∈ pre, qual p c2 → dist2 p c.pos < dist2 p c2.pos) ∧
      (∀ c2 ∈ suf, qual p c2 → dist2 p c.pos ≤ dist2 p c2.pos) := by
  intro cs
  induction cs with
  | nil => intro c d h; cases h
  | cons c0 cs ih =>
      intro c d h
      simp only [List.foldl_cons, resolveStep] at h
      by_cases hq : dist2 p c0.pos < snapThreshold2
      · rw [if_pos hq] at h
        obtain ⟨hd, hcase⟩ := foldl_resolve_acc p cs c0 c d h
        rcases hcase with ⟨rfl, hmin⟩ | ⟨pre, suf, hsplit, hq2, hlt, hpre, hsuf⟩
        · exact ⟨hd, hq, [], cs, rfl, (by intro c2 hc2; cases hc2), hmin⟩
        · refine ⟨hd, hq2, c0 :: pre, suf, by simp [hsplit], ?_, hsuf⟩
          intro c2 hc2
          rcases List.mem_cons.mp hc2 with rfl | hc2
          · intro _; exact hlt
          · exact hpre c2 hc2
      · rw [if_neg hq] at h
        obtain ⟨hd, hq2, pre, suf, hsplit, hpre, hsuf⟩ := ih c d h
        refine ⟨hd, hq2, c0 :: pre, suf, by simp [hsplit], ?_, hsuf⟩
        intro c2 hc2
        rcases List.mem_cons.mp hc2 with rfl | hc2
        · intro hq0
          exact absurd hq0 hq
        · exact hpre c2 hc2

/-- The resolver returns none only when no corner qualifies. -/
theorem resolveSnap_none (p : Pt) (cs : List Corner)
    (h : resolveSnap p cs = none) : ∀ c ∈ cs, ¬ qual p c := by
  unfold resolveSnap at h
  cases hf : cs.foldl (resolveStep p) none with
  | none => exact foldl_resolve_none p cs hf
  | some r => rw [hf] at h; cases h

/-- The resolver returns a qualifying corner that strictly beats every
earlier qualifying corner and is at least as close as every later
one. -/
theorem resolveSnap_some (p : Pt) (cs : List Corner) (c : Corner)
    (h : resolveSnap p cs = some c) :
    qual p c ∧ ∃ pre suf, cs = pre ++ c :: suf ∧
      (∀ c2 ∈ pre, qual p c2 → dist2 p c.pos < dist2 p c2.pos) ∧
      (∀ c2 ∈ suf, qual p c2 → dist2 p c.pos ≤ dist2 p c2.pos) := by
  unfold resolveSnap at h
  cases hf : cs.foldl (resolveStep p) none with
  | none => rw [hf] at h; cases h
  | some r =>
      rw [hf] at h
      simp only [Option.map_some', Option.some.injEq] at h
      obtain ⟨hd, hq, hrest⟩ := foldl_resolve_start p cs r.1 r.2 (by
        rw [hf])
      rw [← h]
      exact ⟨hq, hrest⟩

/-- C5: on release of a drag, the resolver picks the corner of minimum
Euclidean distance among those strictly below 100 from the release
position, ties broken by enumeration order with the first qualifying
corner winning, and null when no corner is below 100; when a corner
resolves, the committed position becomes exactly the corner
coordinates and the snap callback fires with that corner; when none
resolves, the position is left exactly as dragged and no snap callback
fires. -/
theorem snap_release (s : Sys)
    (hdis : s.disabled = false) (hdrag : s.drag.isDragging = true)
    (hpos : s.pos = ⟨s.drag.currentX, s.drag.currentY⟩) :
    (∀ c, resolveSnap ⟨s.drag.currentX, s.drag.currentY⟩
        (corners s.vw s.vh s.isMin) = some c →
      c ∈ corners s.vw s.vh s.isMin ∧
      rdist ⟨s.drag.currentX, s.drag.currentY⟩ c.pos < 100 ∧
      (∀ c2 ∈ corners s.vw s.vh s.isMin,
        rdist ⟨s.drag.currentX, s.drag.currentY⟩ c2.pos < 100 →
        rdist ⟨s.drag.currentX, s.drag.currentY⟩ c.pos ≤
          rdist ⟨s.drag.currentX, s.drag.currentY⟩ c2.pos) ∧
      (∃ pre suf, corners s.vw s.vh s.isMin = pre ++ c :: suf ∧
        ∀ c2 ∈ pre,
          rdist ⟨s.drag.currentX, s.drag.currentY⟩ c2.pos < 100 →
          rdist ⟨s.drag.currentX, s.drag.currentY⟩ c.pos <
            rdist ⟨s.drag.currentX, s.drag.currentY⟩ c2.pos) ∧
      (mouseUp s).1.pos = c.pos ∧ Out.snapN c.cid ∈ (mouseUp s).2) ∧
    (resolveSnap ⟨s.drag.currentX, s.drag.currentY⟩
        (corners s.vw s.vh s.isMin) = none →
      (∀ c2 ∈ corners s.vw s.vh s.isMin,
        ¬ rdist ⟨s.drag.currentX, s.drag.currentY⟩ c2.pos < 100) ∧
      (mouseUp s).1.pos = ⟨s.drag.currentX, s.drag.currentY⟩ ∧
      (∀ n, Out.snapN n ∉ (mouseUp s).2)) := by
  constructor
  · intro c hres
    obtain ⟨hq, pre, suf, hsplit, hpre, hsuf⟩ :=
      resolveSnap_some _ _ _ hres
    have hmem : c ∈ corners s.vw s.vh s.isMin := by
      rw [hsplit]
      exact List.mem_append.mpr (Or.inr (List.mem_cons_self _ _))
    refine ⟨hmem, (rdist_lt100_iff _ _).mpr hq, ?_, ⟨pre, suf, hsplit, ?_⟩,
      ?_, ?_⟩
    · intro c2 hc2 h100
      have hq2 : qual ⟨s.drag.currentX, s.drag.currentY⟩ c2 :=
        (rdist_lt100_iff _ _).mp h100
      rw [hsplit] at hc2
      rcases List.mem_append.mp hc2 with h2 | h2
      · exact (rdist_le_iff _ _ _).mpr (le_of_lt (hpre c2 h2 hq2))
      · rcases List.mem_cons.mp h2 with rfl | h2
        · exact le_refl _
        · exact (rdist_le_iff _ _ _).mpr (hsuf c2 h2 hq2)
    · intro c2 hc2 h100
      exact (rdist_lt_iff _ _ _).mpr
        (hpre c2 hc2 ((rdist_lt100_iff _ _).mp h100))
    · simp [mouseUp, mouseUpCore, hdis, hdrag, hres, updatePos]
    · simp [mouseUp, mouseUpCore, hdis, hdrag, hres, updatePos]
  · intro hres
    have hnq := resolveSnap_none _ _ hres
    refine ⟨?_, ?_, ?_⟩
    · intro c2 hc2 h100
      exact hnq c2 hc2 ((rdist_lt100_iff _ _).mp h100)
    · have hbase : (mouseUp s).1.pos = s.pos := by
        simp [mouseUp, mouseUpCore, hdis, hdrag, hres]
      exact hbase.trans hpos
    · intro n
      simp [mouseUp, mouseUpCore, hdis, hdrag, hres]

/-- Witness for C5: the paragraph-8 scenario, releasing at (650, 30)
in a 1000 by 800 viewport snaps to the top-right corner (670, 10). -/
theorem snap_release_witness :
    resolveSnap ⟨c5WitSys.drag.currentX, c5WitSys.drag.currentY⟩
      (corners c5WitSys.vw c5WitSys.vh c5WitSys.isMin) =
      some ⟨⟨670, 10⟩, CornerId.topRight⟩ ∧
    (mouseUp c5WitSys).1.pos = ⟨670, 10⟩ ∧
    Out.snapN CornerId.topRight ∈ (mouseUp c5WitSys).2 := by
  have hres : resolveSnap ⟨c5WitSys.drag.currentX, c5WitSys.drag.currentY⟩
      (corners c5WitSys.vw c5WitSys.vh c5WitSys.isMin) =
      some ⟨⟨670, 10⟩, CornerId.topRight⟩ := by
    norm_num [resolveSnap, resolveStep, corners, dist2, elementW, elementH,
      snapThreshold2, c5WitSys]
  have h := (snap_release c5WitSys rfl rfl rfl).1
    ⟨⟨670, 10⟩, CornerId.topRight⟩ hres
  exact ⟨hres, h.2.2.2.2.1, h.2.2.2.2.2⟩

end Preview
